import Mathlib

/-!
Shallow embedding of the reconciliation core of svarlamov/libcompose
(Go sources: docker/container.go, config/merge_v1.go, the Service file,
project/listener.go), together with theorems settling the frozen claims
about the natural-language specification.

Machine integers: the only integers in play are container instance numbers
(small decimal labels); they are modelled as Int, matching Go int semantics
on the in-range values the claims exercise.

External collaborators (the docker runtime client, YAML parsing and
interpolation) are modelled as explicit state (a `World`) respectively as
pre-parsed inputs, following the spec's interface boundary (spec section 6).
-/

set_option autoImplicit false

namespace LibCompose

/-! ## Association-list helpers (Go map model)

Go maps are modelled as association lists keyed by `String`; `assocLookup`
returns the first binding, `setKey` overwrites it (Go assignment).  Go's
zero-value read of a missing key is `goMapGet` (empty string). -/

def assocLookup {α : Type} : List (String × α) → String → Option α
  | [], _ => none
  | (k', v) :: rest, k => if k' = k then some v else assocLookup rest k

def setKey {α : Type} : List (String × α) → String → α → List (String × α)
  | [], k, v => [(k, v)]
  | (k', v') :: rest, k, v =>
    if k' = k then (k, v) :: rest else (k', v') :: setKey rest k v

def goMapGet (l : List (String × String)) (k : String) : String :=
  (assocLookup l k).getD ""

theorem assocLookup_append {α : Type} (a b : List (String × α)) (k : String) :
    assocLookup (a ++ b) k =
      match assocLookup a k with
      | some v => some v
      | none => assocLookup b k := by
  induction a with
  | nil => simp [assocLookup]
  | cons hd tl ih =>
    obtain ⟨k', v⟩ := hd
    by_cases h : k' = k <;> simp [assocLookup, h, ih]

/-! ## Configuration merge model (config/merge_v1.go) -/

/-- Raw YAML values as they appear in a v1 service mapping: scalar strings,
string lists, and nested string-keyed mappings (only the `extends` mapping
is nested in the fragment under study). -/
inductive Val where
  | str : String → Val
  | list : List String → Val
  | vmap : List (String × Val) → Val

/-- RawService is Go's `map[string]interface{}` for one service declaration. -/
abbrev RawService := List (String × Val)

/-- RawServiceMap is Go's `map[string]RawService`: service name to raw fields. -/
abbrev RawServiceMap := List (String × RawService)

/-- Modelled from the spec: `asString` (helper outside src/) converts an
untyped YAML value to a string, yielding the empty string for a missing key
or a non-string value (Go type assertion with zero-value fallback). -/
def asString : Option Val → String
  | some (.str s) => s
  | _ => ""

/-- Modelled from the spec: the fixed disallow-list of non-extendable fields
(spec section 4.5 step 4); `noMerge` itself lives outside src/. -/
def noMerge : List String := ["links", "volumes_from"]

/-- Modelled from the spec: `mergeConfig` (outside src/) merges a base
service as defaults under the extending service's own fields; same-named
fields are overridden wholesale by the more specific layer, list-valued
fields included (no implicit list append). -/
def mergeConfig (base child : RawService) : RawService :=
  (List.filter (fun kv => (assocLookup child kv.1).isNone) base) ++ child

/-- Modelled from the spec: `clone` (outside src/) deep-copies a raw service
so that the merge result never aliases cached base state.  On pure values the
copy is the value itself; the aliasing consequence is stated over the heap
model below (`extendsMergeStep`). -/
def clone (s : RawService) : RawService := s

theorem assocLookup_mergeConfig (base child : RawService) (k : String) :
    assocLookup (mergeConfig base child) k =
      match assocLookup child k with
      | some v => some v
      | none => assocLookup base k := by
  unfold mergeConfig
  rw [assocLookup_append]
  induction base with
  | nil => cases h : assocLookup child k <;> simp [assocLookup, h]
  | cons hd tl ih =>
    obtain ⟨k', v⟩ := hd
    by_cases hk : k' = k
    · subst hk
      cases h : assocLookup child k' with
      | none => simp [List.filter, assocLookup, h]
      | some w =>
        simp only [List.filter, h, Option.isNone_some]
        simpa [h] using ih
    · cases h : assocLookup child k with
      | none =>
        cases hc : assocLookup child k' with
        | none => simp_all [List.filter, assocLookup, hk, hc]
        | some w => simp_all [List.filter, assocLookup, hk, hc]
      | some w =>
        cases hc : assocLookup child k' with
        | none => simp_all [List.filter, assocLookup, hk, hc]
        | some w' => simp_all [List.filter, hc]

/-- Modelled from the spec: the cross-file resource-lookup collaborator.
`Lookup file inFile` returns the referenced file's already-parsed,
interpolated and validated raw service mapping together with the resolved
path (YAML mechanics are outside the core, spec section 1/6). -/
def ResLookup := String → String → Except String (RawServiceMap × String)

/-- Modelled from the spec: `readEnvFile` resolves environment-file injected
fields.  Environment lookup mechanics are an external collaborator concern
(spec section 1) and no claim under study involves an `env_file` field, so
the resolution is the identity on the service mapping. -/
def readEnvFile (serviceData : RawService) : RawService := serviceData

/-- Shallow embedding of `parseV1` (config/merge_v1.go lines 61-150).
Recursion into the base's own `extends` is fuelled; the Go code has no cycle
guard in this fragment, so fuel exhaustion models its divergence on cyclic
chains.  The cross-file branch's unmarshal/interpolate/validate steps are
folded into the `ResLookup` collaborator. -/
def parseV1 (fuel : Nat) (resourceLookup : Option ResLookup) (inFile : String)
    (serviceData0 : RawService) (datas : RawServiceMap) : Except String RawService :=
  match fuel with
  | 0 => .error "extends recursion limit reached"
  | fuel + 1 =>
    let serviceData := readEnvFile serviceData0
    match assocLookup serviceData "extends" with
    | none => .ok serviceData
    | some value =>
      match value with
      | .vmap mapValue =>
        match resourceLookup with
        | none =>
          .error ("Can not use extends in file " ++ inFile ++ " no mechanism provided to files")
        | some lkup =>
          let file := asString (assocLookup mapValue "file")
          let service := asString (assocLookup mapValue "service")
          if service = "" then .ok serviceData
          else
            let baseRes : Except String RawService :=
              if file = "" then
                match assocLookup datas service with
                | some sd => parseV1 fuel resourceLookup inFile sd datas
                | none => .error ("Failed to find service " ++ service ++ " to extend")
              else
                match lkup file inFile with
                | .error e => .error e
                | .ok (baseRawServices, resolved) =>
                  match assocLookup baseRawServices service with
                  | none =>
                    .error ("Failed to find service " ++ service ++ " in file " ++ file)
                  | some baseService =>
                    parseV1 fuel resourceLookup resolved baseService baseRawServices
            match baseRes with
            | .error e => .error e
            | .ok base =>
              let baseService := clone base
              match noMerge.find? (fun k => (assocLookup baseService k).isSome) with
              | some k =>
                let source := if file = "" then inFile else file
                .error ("Cannot extend service '" ++ service ++ "' in " ++ source ++
                  ": services with '" ++ k ++ "' cannot be extended")
              | none => .ok (mergeConfig baseService serviceData)
      | _ => .ok serviceData

/-! ## Heap model for the clone-before-merge step (merge_v1.go lines 131-149)

Go raw services are map references; `clone` allocates a fresh map.  The heap
holds raw-service contents addressed by numeric references, so aliasing (and
its absence) is expressible: mutating the merge result's reference must not
change the base's content. -/

structure Heap where
  cells : List RawService

def Heap.size (h : Heap) : Nat := h.cells.length

def Heap.read (h : Heap) (r : Nat) : RawService := h.cells.getD r []

def Heap.write (h : Heap) (r : Nat) (v : RawService) : Heap := ⟨h.cells.set r v⟩

def Heap.alloc (h : Heap) (v : RawService) : Nat × Heap :=
  (h.cells.length, ⟨h.cells ++ [v]⟩)

/-- The tail of `parseV1` (merge_v1.go lines 131-149) over the heap model:
clone the resolved base into a fresh cell, reject bases declaring a
non-extendable field, then merge the extending service's fields over the
clone (Go's mergeConfig mutates and returns its first argument, modelled as
a write through the clone's reference). -/
def extendsMergeStep (service file inFile : String) (baseRef childRef : Nat)
    (h : Heap) : Except String (Nat × Heap) :=
  let baseContent := h.read baseRef
  let (r, h1) := h.alloc baseContent
  match noMerge.find? (fun k => (assocLookup (h1.read r) k).isSome) with
  | some k =>
    let source := if file = "" then inFile else file
    .error ("Cannot extend service '" ++ service ++ "' in " ++ source ++
      ": services with '" ++ k ++ "' cannot be extended")
  | none => .ok (r, h1.write r (mergeConfig (h1.read r) (h1.read childRef)))

theorem Heap.read_alloc_new (h : Heap) (v : RawService) :
    ((h.alloc v).2).read (h.alloc v).1 = v := by
  simp [Heap.alloc, Heap.read, List.getD_append_right]

theorem Heap.read_alloc_old (h : Heap) (v : RawService) (r : Nat) (hr : r < h.size) :
    ((h.alloc v).2).read r = h.read r := by
  simp only [Heap.alloc, Heap.read, Heap.size] at *
  rw [List.getD_eq_getElem?_getD, List.getD_eq_getElem?_getD,
    List.getElem?_append_left hr]

theorem Heap.read_write_ne (h : Heap) (r r' : Nat) (v : RawService) (hne : r ≠ r') :
    (h.write r v).read r' = h.read r' := by
  simp only [Heap.write, Heap.read]
  rw [List.getD_eq_getElem?_getD, List.getD_eq_getElem?_getD,
    List.getElem?_set_ne hne]

/-! ## Docker-side data model (docker/container.go and the Service file)

The docker runtime client is an external collaborator (spec section 6); its
observable state is a `World` of container records, local images, emitted
lifecycle events and a log of state-changing runtime calls.  `createFails`
is the collaborator's response oracle for the next `ContainerCreate` call,
used to state the failure-path claims. -/

/-- Effective service configuration; the fields the claims exercise
(spec section 3, ServiceConfig). -/
structure ServiceConfig where
  image : String := ""
  containerName : String := ""
  command : List String := []
  tty : Bool := false
  stdinOpen : Bool := false
  volumes : List String := []
  externalLinks : List String := []
  size : String := ""
  deriving DecidableEq, Repr

/-- Modelled from the spec: the label keys of the persisted label schema
(spec section 6); the labels package is outside src/ and the keys are
opaque, equality-compared strings. -/
def labelService : String := "com.docker.compose.service"

/-- Modelled from the spec: project-name label key. -/
def labelProject : String := "com.docker.compose.project"

/-- Modelled from the spec: config content-hash label key. -/
def labelHash : String := "com.docker.compose.config-hash"

/-- Modelled from the spec: one-off flag label key. -/
def labelOneOff : String := "com.docker.compose.oneoff"

/-- Modelled from the spec: instance-number label key (decimal string). -/
def labelNumber : String := "com.docker.compose.container-number"

/-- Modelled from the spec: schema version label key. -/
def labelVersion : String := "com.docker.compose.version"

/-- Modelled from the spec: the engine's schema version string
(`ComposeVersion`, outside src/); opaque, equality-compared only. -/
def composeVersion : String := "1.5.0"

/-- Modelled from the spec: `config.GetServiceHash` (outside src/) derives
the config content hash of a service; it is an opaque string that changes
exactly when the hashed fields change and is only ever equality-compared
(spec section 6), modelled as an injective encoding of the fields. -/
def GetServiceHash (serviceName : String) (sc : ServiceConfig) : String :=
  "hash|" ++ serviceName ++ "|" ++ sc.image ++ "|" ++ sc.containerName ++ "|" ++
    String.intercalate "\x01" sc.command ++ "|" ++
    (if sc.tty then "t" else "f") ++ (if sc.stdinOpen then "t" else "f") ++ "|" ++
    String.intercalate "\x01" sc.volumes ++ "|" ++
    String.intercalate "\x01" sc.externalLinks ++ "|" ++ sc.size

/-- One mount of a container record (types.MountPoint: host source and
container destination). -/
structure Mount where
  source : String
  destination : String
  deriving DecidableEq, Repr

/-- A container record held by the runtime (the projection of
types.ContainerJSON the engine reads): `name` is stored with the leading
slash docker prepends, `configImage` is Config.Image (the image reference
the container was created with), `imageId` is Image (the content ID). -/
structure ContainerRecord where
  id : String
  name : String
  configImage : String
  imageId : String
  labels : List (String × String)
  running : Bool := false
  paused : Bool := false
  mounts : List Mount := []
  binds : List String := []
  deriving DecidableEq, Repr

/-- Lifecycle event kinds the embedded fragment emits. -/
inductive EventType where
  | containerCreated
  | containerStarted
  deriving DecidableEq, Repr

/-- One emitted lifecycle event: kind, service name, key-value payload. -/
structure EventRecord where
  eventType : EventType
  serviceName : String
  data : List (String × String)
  deriving DecidableEq, Repr

/-- State-changing runtime calls, logged in order of issue. -/
inductive Op where
  | rename (id newName : String)
  | create (name : String)
  | remove (id : String) (force removeVolumes : Bool)
  deriving DecidableEq, Repr

/-- Observable state of the runtime collaborator plus the event sink.
`images` maps an image reference to its content ID (present iff the image
exists locally); `createFails` is the collaborator's failure oracle for
`ContainerCreate`. -/
structure World where
  containers : List ContainerRecord := []
  images : List (String × String) := []
  events : List EventRecord := []
  log : List Op := []
  nextId : Nat := 0
  createFails : Bool := false
  deriving DecidableEq, Repr

/-- Declared relationship kinds (project.RelTypeLink and friends). -/
inductive RelType where
  | link
  | ipcNamespace
  | netNamespace
  deriving DecidableEq, Repr

/-- A ServiceRelationship edge consumed by host-config derivation. -/
structure Rel where
  relType : RelType
  target : String
  aliasName : String
  deriving DecidableEq, Repr

/-- One entry of the dependent-service iteration in
`populateAdditionalHostConfig`: the relationship, whether the owning
project's config set has the target (the `Has` guard), and the target
service's current container names (the `service.Containers()` query,
pre-resolved since it is a runtime read). -/
structure DepEntry where
  rel : Rel
  present : Bool
  containers : List String
  deriving DecidableEq, Repr

/-- The identity a `Container` struct is built with (docker/container.go
lines 29-41): canonical name (without slash), owning service and project
names, instance number, one-off flag; `dependentServices` carries the
owning service's resolved relationship edges. -/
structure Env where
  name : String
  serviceName : String
  projectName : String
  containerNumber : Int := 0
  oneOff : Bool := false
  dependentServices : List DepEntry := []
  deriving DecidableEq, Repr

/-- Mutable program state threaded through a call: the runtime world plus
the owning Service's persisted configuration (the target of the
`c.service.serviceConfig` pointer). -/
structure St where
  world : World
  serviceConfig : ServiceConfig
  deriving DecidableEq, Repr

/-- Modelled from the spec: `GetContainer(client, name)` (helper outside
src/) resolves a container by its canonical name, `nil` when absent. -/
def findExisting (w : World) (nm : String) : Option ContainerRecord :=
  w.containers.find? (fun r => r.name = "/" ++ nm)

/-- ContainerInspect by ID against the runtime state. -/
def inspectById (w : World) (cid : String) : Option ContainerRecord :=
  w.containers.find? (fun r => r.id = cid)

/-- ImageInspectWithRaw against the runtime state: `none` is the
image-not-found error, `some id` the image's content ID. -/
def imageInspect (w : World) (ref : String) : Option String :=
  assocLookup w.images ref

/-- The API-facing container configuration produced by the convert layer. -/
structure ApiConfig where
  image : String := ""
  labels : List (String × String) := []
  volumes : List String := []
  deriving DecidableEq, Repr

/-- The API-facing host configuration produced by the convert layer. -/
structure HostConfig where
  binds : List String := []
  links : List String := []
  deriving DecidableEq, Repr

/-- Config plus HostConfig, as returned by the convert layer. -/
structure ConfigWrapper where
  config : ApiConfig
  hostConfig : HostConfig
  deriving DecidableEq, Repr

/-- Go `strings.Split(s, string(sep))` for a single-character separator,
over the character list (kernel-reducible). -/
def goSplitCore (sep : Char) : List Char → List Char → List String
  | [], acc => [String.mk acc.reverse]
  | c :: rest, acc =>
    if c = sep then String.mk acc.reverse :: goSplitCore sep rest []
    else goSplitCore sep rest (c :: acc)

/-- Go `strings.Split(s, string(sep))`. -/
def goSplit (s : String) (sep : Char) : List String := goSplitCore sep s.toList []

/-- Modelled from the spec: `ConvertToAPI` (outside src/) derives the API
container- and host-configuration from the effective service configuration.
A declared volume `host:dest` becomes a host bind, a bare `dest` a declared
volume destination of the container configuration. -/
def ConvertToAPI (sc : ServiceConfig) : ConfigWrapper :=
  { config :=
      { image := sc.image
        labels := []
        volumes := sc.volumes.filterMap (fun v =>
          match goSplit v ':' with
          | [d] => some d
          | _ => none) }
    hostConfig :=
      { binds := sc.volumes.filter (fun v => (goSplit v ':').length = 2)
        links := [] } }

/-- Modelled from the spec: `util.Merge` (outside src/) combines two string
slices into their duplicate-free union; used to inherit the old container's
matching volume binds into the replacement's binds. -/
def utilMerge (existing value : List String) : List String :=
  existing ++ value.filter (fun v => ¬ v ∈ existing)

/-- Shallow embedding of `volumeBinds` (docker/container.go lines 485-493):
collect `source:destination` for every mount of the old container whose
destination is among the new configuration's declared volumes. -/
def volumeBinds (volumes : List String) (container : ContainerRecord) : List String :=
  (container.mounts.filter (fun m => m.destination ∈ volumes)).map
    (fun m => m.source ++ ":" ++ m.destination)

/-- Shallow embedding of `addLinks` (docker/container.go lines 596-604):
for every linked container, record the declared alias (first container
wins) and the bare-name self mapping. -/
def addLinks (links : List (String × String)) (rel : Rel)
    (containers : List String) : List (String × String) :=
  containers.foldl
    (fun links nm =>
      let links :=
        if (assocLookup links rel.aliasName).isNone then setKey links rel.aliasName nm
        else links
      setKey links nm nm)
    links

/-- Shallow embedding of `addIpc` (docker/container.go lines 606-620): the
body is commented out in the source; the host configuration is returned
unchanged and no error is raised. -/
def addIpc (config : HostConfig) (containers : List String) :
    Except String HostConfig :=
  .ok config

/-- Shallow embedding of `addNetNs` (docker/container.go lines 622-636):
the body is commented out in the source; the host configuration is returned
unchanged and no error is raised. -/
def addNetNs (config : HostConfig) (containers : List String) :
    Except String HostConfig :=
  .ok config

/-- The dependent-services loop of `populateAdditionalHostConfig`
(docker/container.go lines 557-583). -/
def populateLoop (deps : List DepEntry) (links : List (String × String))
    (hostConfig : HostConfig) : Except String (List (String × String) × HostConfig) :=
  match deps with
  | [] => .ok (links, hostConfig)
  | d :: rest =>
    if d.present = false then populateLoop rest links hostConfig
    else
      match d.rel.relType with
      | .link => populateLoop rest (addLinks links d.rel d.containers) hostConfig
      | .ipcNamespace =>
        match addIpc hostConfig d.containers with
        | .error e => .error e
        | .ok hc => populateLoop rest links hc
      | .netNamespace =>
        match addNetNs hostConfig d.containers with
        | .error e => .error e
        | .ok hc => populateLoop rest links hc

/-- Shallow embedding of `populateAdditionalHostConfig`
(docker/container.go lines 554-594): walk the dependent services building
the alias map, then emit `name:alias` link strings followed by the
explicitly declared external links. -/
def populateAdditionalHostConfig (env : Env) (sc : ServiceConfig)
    (hostConfig : HostConfig) : Except String HostConfig :=
  match populateLoop env.dependentServices [] hostConfig with
  | .error e => .error e
  | .ok (links, hc) =>
    .ok { hc with
            links := links.map (fun kv => kv.2 ++ ":" ++ kv.1) ++ sc.externalLinks }

/-- Error string of a refused ContainerCreate (runtime collaborator). -/
def createFailedErr : String := "Error response from daemon: create failed"

/-- Fresh runtime container ID (the collaborator assigns IDs). -/
def freshId (w : World) : String := "cnt" ++ toString w.nextId

/-- Runtime derivation of a created container's mounts from its binds. -/
def bindsToMounts (binds : List String) : List Mount :=
  binds.filterMap (fun b =>
    match goSplit b ':' with
    | [s, d] => some ⟨s, d⟩
    | _ => none)

/-- ContainerRename against the runtime state (logged). -/
def renameWorld (w : World) (cid newName : String) : World :=
  { w with
      containers := w.containers.map
        (fun r => if r.id = cid then { r with name := "/" ++ newName } else r)
      log := w.log ++ [.rename cid newName] }

/-- ContainerRemove against the runtime state (logged). -/
def removeWorld (w : World) (cid : String) (force removeVolumes : Bool) : World :=
  { w with
      containers := w.containers.filter (fun r => ¬ r.id = cid)
      log := w.log ++ [.remove cid force removeVolumes] }

/-- The pointer write-through of createContainer's first lines
(docker/container.go lines 496-501): `serviceConfig := c.service.serviceConfig`
copies a pointer, so assigning Command/Tty/StdinOpen assigns into the owning
Service's persisted configuration. -/
def applyOverride (sc : ServiceConfig) : Option ServiceConfig → ServiceConfig
  | none => sc
  | some o => { sc with command := o.command, tty := o.tty, stdinOpen := o.stdinOpen }

/-- The label assembly of createContainer (docker/container.go
lines 509-528), starting from the convert layer's labels. -/
def buildLabels (env : Env) (sc : ServiceConfig)
    (init : List (String × String)) : List (String × String) :=
  let oneOffString := if env.oneOff then "True" else "False"
  let lbls := setKey init labelService env.serviceName
  let lbls := setKey lbls labelProject env.projectName
  let lbls := setKey lbls labelHash (GetServiceHash env.serviceName sc)
  let lbls := setKey lbls labelOneOff oneOffString
  let lbls := setKey lbls labelNumber (toString env.containerNumber)
  let lbls := setKey lbls labelVersion composeVersion
  let size := if sc.size = "" then "s4" else sc.size
  setKey lbls "sh_hyper_instancetype" size

/-- Shallow embedding of `Container.createContainer` (docker/container.go
lines 495-552).  The first step copies the `c.service.serviceConfig`
pointer and assigns Command/Tty/StdinOpen through it when an override is
given, so the owning Service's persisted configuration is part of the
returned state. -/
def createContainer (env : Env) (imageName oldContainer : String)
    (configOverride : Option ServiceConfig) (st : St) :
    Except String ContainerRecord × St :=
  let sc := applyOverride st.serviceConfig configOverride
  let st := { st with serviceConfig := sc }
  let cw := ConvertToAPI sc
  let cfg := { cw.config with image := imageName }
  let lbls := buildLabels env sc cfg.labels
  match populateAdditionalHostConfig env sc cw.hostConfig with
  | .error e => (.error e, st)
  | .ok hc0 =>
    let inspected : Except String (Option ContainerRecord) :=
      if oldContainer = "" then .ok none
      else
        match inspectById st.world oldContainer with
        | none => .error ("Error: No such container: " ++ oldContainer)
        | some info => .ok (some info)
    match inspected with
    | .error e => (.error e, st)
    | .ok oldInfo =>
      let hc :=
        match oldInfo with
        | none => hc0
        | some info =>
          { hc0 with binds := utilMerge hc0.binds (volumeBinds cfg.volumes info) }
      if st.world.createFails then (.error createFailedErr, st)
      else
        let newRec : ContainerRecord :=
          { id := freshId st.world
            name := "/" ++ env.name
            configImage := cfg.image
            imageId := (imageInspect st.world cfg.image).getD ""
            labels := lbls
            running := false
            paused := false
            mounts := bindsToMounts hc.binds
            binds := hc.binds }
        let w' : World :=
          { st.world with
              containers := newRec :: st.world.containers
              nextId := st.world.nextId + 1
              log := st.world.log ++ [.create env.name] }
        match inspectById w' newRec.id with
        | some r => (.ok r, { st with world := w' })
        | none => (.error ("Error: No such container: " ++ newRec.id), { st with world := w' })

/-- Shallow embedding of `Container.CreateWithOverride`
(docker/container.go lines 177-194): return the existing container
unchanged, or create one and emit a ContainerCreated event. -/
def CreateWithOverride (env : Env) (imageName : String)
    (configOverride : Option ServiceConfig) (st : St) :
    Except String ContainerRecord × St :=
  match findExisting st.world env.name with
  | some container => (.ok container, st)
  | none =>
    match createContainer env imageName "" configOverride st with
    | (.error e, st') => (.error e, st')
    | (.ok container, st') =>
      let st'' :=
        { st' with
            world :=
              { st'.world with
                  events := st'.world.events ++
                    [⟨.containerCreated, env.serviceName, [("name", env.name)]⟩] } }
      (.ok container, st'')

/-- Shallow embedding of `Container.Create` (docker/container.go
lines 170-172). -/
def Create (env : Env) (imageName : String) (st : St) :
    Except String ContainerRecord × St :=
  CreateWithOverride env imageName none st

/-- Shallow embedding of `Container.Recreate` (docker/container.go
lines 130-165): rename the old container to `name-id[:12]`, create the
replacement under the canonical name inheriting matching volume binds,
force-remove the renamed original. -/
def Recreate (env : Env) (imageName : String) (st : St) :
    Except String (Option ContainerRecord) × St :=
  match findExisting st.world env.name with
  | none => (.ok none, st)
  | some container =>
    let hash := goMapGet container.labels labelHash
    if hash = "" then
      (.error ("Failed to find hash on old container: " ++ container.name), st)
    else
      let nm := container.name.drop 1
      let newName := nm ++ "-" ++ container.id.take 12
      let st1 := { st with world := renameWorld st.world container.id newName }
      match createContainer env imageName container.id none st1 with
      | (.error e, st') => (.error e, st')
      | (.ok newContainer, st') =>
        let st'' := { st' with world := removeWorld st'.world container.id true false }
        (.ok (some newContainer), st'')

/-- Shallow embedding of `Container.OutOfSync` (docker/container.go
lines 452-479): image-reference mismatch, then hash-label mismatch, then
image-content-ID mismatch with image-not-found treated as in sync. -/
def OutOfSync (env : Env) (imageName : String) (st : St) : Except String Bool :=
  match findExisting st.world env.name with
  | none => .ok false
  | some container =>
    if ¬ container.configImage = imageName then .ok true
    else if ¬ goMapGet container.labels labelHash
        = GetServiceHash env.serviceName st.serviceConfig then .ok true
    else
      match imageInspect st.world container.configImage with
      | none => .ok false
      | some imageId => .ok (¬ imageId = container.imageId)

/-! ## Service.collectContainers (the Service file, lines 73-93) -/

/-- One element of a label-filtered runtime query result (types.Container:
labels and names, names carrying docker's leading slash). -/
structure QueryRecord where
  labels : List (String × String)
  names : List String
  deriving DecidableEq, Repr

/-- Go `strconv.Atoi`: an optional sign followed by at least one decimal
digit; anything else is an error.  (Range errors on values beyond 64 bits
are not modelled; instance labels are small decimals.) -/
def goAtoi (s : String) : Except String Int :=
  let (sign, digits) :=
    match s.toList with
    | '+' :: rest => ((1 : Int), rest)
    | '-' :: rest => ((-1 : Int), rest)
    | l => ((1 : Int), l)
  if digits = [] then .error ("strconv.Atoi: parsing " ++ s ++ ": invalid syntax")
  else if digits.all Char.isDigit then
    .ok (sign * (digits.foldl (fun a c => a * 10 + ((c.toNat : Int) - 48)) 0))
  else .error ("strconv.Atoi: parsing " ++ s ++ ": invalid syntax")

/-- Go `strings.SplitAfter(s, "/")` restricted to the slash separator. -/
def splitAfterCore : List Char → List Char → List String
  | [], acc => [String.mk acc.reverse]
  | c :: rest, acc =>
    if c = '/' then String.mk (c :: acc).reverse :: splitAfterCore rest []
    else splitAfterCore rest (c :: acc)

/-- Go `strings.SplitAfter(s, "/")`. -/
def splitAfterSlash (s : String) : List String := splitAfterCore s.toList []

/-- The name extraction of `collectContainers`:
`strings.SplitAfter(container.Names[0], "/")` indexed at 1. -/
def queryName (r : QueryRecord) : String :=
  (splitAfterSlash (r.names.headD "")).getD 1 ""

/-- Shallow embedding of the loop of `Service.collectContainers` (the
Service file, lines 80-92) over the label-filtered query result: parse
each record's instance-number label with Atoi, failing the whole call on
the first unparseable label, and build the (name, number) identities the
`NewContainer` calls receive. -/
def collectContainers (records : List QueryRecord) :
    Except String (List (String × Int)) :=
  match records with
  | [] => .ok []
  | r :: rest =>
    match goAtoi (goMapGet r.labels labelNumber) with
    | .error e => .error e
    | .ok containerNumber =>
      match collectContainers rest with
      | .error e => .error e
      | .ok result => .ok ((queryName r, containerNumber) :: result)

/-! ## Theorems settling the claims -/

theorem Heap.read_write_eq (h : Heap) (r : Nat) (v : RawService) (hr : r < h.size) :
    (h.write r v).read r = v := by
  simp only [Heap.write, Heap.read]
  rw [List.getD_eq_getElem?_getD, List.getElem?_set_eq_of_lt v hr]
  rfl

theorem Heap.size_alloc (h : Heap) (v : RawService) :
    ((h.alloc v).2).size = h.size + 1 := by
  simp [Heap.alloc, Heap.size]

/-- C5: resolving an extends declaration clones the resolved base into a
fresh cell and merges the extending service's own fields over it: every
field of the result is the child's when the child declares it (lists
overridden wholesale, since a field holds its whole value) and the base's
otherwise; the result lives at a reference distinct from the base's, the
base's content is untouched by the merge, and overwriting the result's
reference afterwards never alters the base's content. -/
theorem extends_clone_merge (svc file inFile : String) (h : Heap)
    (baseRef childRef : Nat) (hb : baseRef < h.size) (hc : childRef < h.size)
    (hnm : ∀ k, k ∈ noMerge → assocLookup (h.read baseRef) k = none) :
    ∃ h', extendsMergeStep svc file inFile baseRef childRef h = .ok (h.size, h') ∧
      (∀ k, assocLookup (h'.read h.size) k =
        match assocLookup (h.read childRef) k with
        | some v => some v
        | none => assocLookup (h.read baseRef) k) ∧
      h'.read baseRef = h.read baseRef ∧
      ¬ h.size = baseRef ∧
      (∀ v, ((h'.write h.size v).read baseRef) = h.read baseRef) := by
  have hsz : h.size < ((h.alloc (h.read baseRef)).2).size := by
    rw [Heap.size_alloc]; omega
  have hnewread : ((h.alloc (h.read baseRef)).2).read h.size = h.read baseRef := by
    have := Heap.read_alloc_new h (h.read baseRef)
    simpa [Heap.alloc, Heap.size] using this
  have hfind :
      noMerge.find?
        (fun k => (assocLookup (((h.alloc (h.read baseRef)).2).read h.size) k).isSome)
        = none := by
    rw [List.find?_eq_none]
    intro k hk
    rw [hnewread, hnm k hk]
    simp
  have hchild : ((h.alloc (h.read baseRef)).2).read childRef = h.read childRef :=
    Heap.read_alloc_old h (h.read baseRef) childRef hc
  have hbne : ¬ h.size = baseRef := by omega
  refine ⟨((h.alloc (h.read baseRef)).2).write h.size
      (mergeConfig (((h.alloc (h.read baseRef)).2).read h.size)
        (((h.alloc (h.read baseRef)).2).read childRef)), ?_, ?_, ?_, hbne, ?_⟩
  · simp only [extendsMergeStep]
    have halloc1 : (h.alloc (h.read baseRef)).1 = h.size := rfl
    rw [halloc1, hfind]
  · intro k
    rw [Heap.read_write_eq _ _ _ hsz, hnewread, hchild, assocLookup_mergeConfig]
  · rw [Heap.read_write_ne _ _ _ _ hbne, Heap.read_alloc_old h _ baseRef hb]
  · intro v
    rw [Heap.read_write_ne _ _ _ _ hbne, Heap.read_write_ne _ _ _ _ hbne,
      Heap.read_alloc_old h _ baseRef hb]

/-- Concrete heap for the C5 witness: cell 0 holds base service A
`{image: x, command: a}`, cell 1 holds child B `{extends: {service: A},
command: b}`. -/
def extendsWitnessHeap : Heap :=
  ⟨[[("image", Val.str "x"), ("command", Val.str "a")],
    [("extends", Val.vmap [("service", Val.str "A")]), ("command", Val.str "b")]]⟩

theorem extends_clone_merge_witness :
    ∃ h', extendsMergeStep "B" "" "compose.yml" 0 1 extendsWitnessHeap
        = .ok (extendsWitnessHeap.size, h') ∧
      (∀ k, assocLookup (h'.read extendsWitnessHeap.size) k =
        match assocLookup (extendsWitnessHeap.read 1) k with
        | some v => some v
        | none => assocLookup (extendsWitnessHeap.read 0) k) ∧
      h'.read 0 = extendsWitnessHeap.read 0 ∧
      ¬ extendsWitnessHeap.size = 0 ∧
      (∀ v, ((h'.write extendsWitnessHeap.size v).read 0)
        = extendsWitnessHeap.read 0) :=
  extends_clone_merge "B" "" "compose.yml" extendsWitnessHeap 0 1
    (by decide) (by decide)
    (by intro k hk
        simp only [noMerge, List.mem_cons, List.not_mem_nil, or_false] at hk
        rcases hk with h | h <;> subst h <;> rfl)

/-- C6 counterexample: a same-file extends reference whose base service is
present in the same file, resolved with the resource-lookup collaborator
absent.  The claim says same-file resolution fails only if the base is
absent (collaborator absence being fatal only for cross-file references),
but `parseV1` checks `resourceLookup == nil` before distinguishing the two
reference forms and fails here. -/
theorem parseV1_samefile_nil_lookup_counterexample :
    (parseV1 8 none "docker-compose.yml"
      [("extends", Val.vmap [("service", Val.str "A")]), ("command", Val.str "b")]
      [("A", [("image", Val.str "x")])]).isOk = false := by
  rfl

/-- C6 amended: when a service declares `extends` as a mapping naming a
base service, the absence of the resource-lookup collaborator is a fatal
configuration error for same-file references as well as cross-file ones;
given the collaborator, a same-file reference fails when the named base
service is absent from the same file. -/
theorem parseV1_extends_lookup_requirement (fuel : Nat) (inFile : String)
    (serviceData : RawService) (datas : RawServiceMap)
    (mapValue : List (String × Val)) (s : String)
    (hx : assocLookup serviceData "extends" = some (.vmap mapValue))
    (hs : asString (assocLookup mapValue "service") = s)
    (hne : ¬ s = "")
    (hf : asString (assocLookup mapValue "file") = "") :
    (parseV1 (fuel + 1) none inFile serviceData datas).isOk = false ∧
    (∀ lk : ResLookup, assocLookup datas s = none →
      parseV1 (fuel + 1) (some lk) inFile serviceData datas
        = .error ("Failed to find service " ++ s ++ " to extend")) := by
  constructor
  · simp only [parseV1, readEnvFile, hx]
    rfl
  · intro lk hnone
    simp only [parseV1, readEnvFile, hx, hs, hf]
    rw [if_neg hne]
    simp only [if_pos rfl, hnone]
    rw [if_pos trivial]

theorem parseV1_extends_lookup_requirement_witness :
    (parseV1 8 none "docker-compose.yml"
      [("extends", Val.vmap [("service", Val.str "A")])] []).isOk = false ∧
    (∀ lk : ResLookup, assocLookup ([] : RawServiceMap) "A" = none →
      parseV1 8 (some lk) "docker-compose.yml"
        [("extends", Val.vmap [("service", Val.str "A")])] []
        = .error ("Failed to find service " ++ "A" ++ " to extend")) :=
  parseV1_extends_lookup_requirement 7 "docker-compose.yml"
    [("extends", Val.vmap [("service", Val.str "A")])] []
    [("service", Val.str "A")] "A" rfl rfl (by decide) rfl

/-- C7: a label-filtered runtime query result containing a record whose
instance-number label is missing or not a decimal integer makes
`collectContainers` fail as a whole rather than skip the record, and on
success every constructed container identity carries exactly the number
parsed from its record's label. -/
theorem collectContainers_label_invariant (records : List QueryRecord) :
    ((∃ r, r ∈ records ∧ (goAtoi (goMapGet r.labels labelNumber)).isOk = false) →
      (collectContainers records).isOk = false) ∧
    (∀ cs, collectContainers records = .ok cs →
      List.Forall₂
        (fun r p => p.1 = queryName r ∧
          goAtoi (goMapGet r.labels labelNumber) = .ok p.2)
        records cs) := by
  induction records with
  | nil =>
    refine ⟨?_, ?_⟩
    · rintro ⟨r, hr, -⟩
      exact absurd hr (List.not_mem_nil r)
    · intro cs hcs
      simp only [collectContainers] at hcs
      cases hcs
      exact List.Forall₂.nil
  | cons r rest ih =>
    refine ⟨?_, ?_⟩
    · rintro ⟨x, hx, hbad⟩
      simp only [collectContainers]
      rcases List.mem_cons.mp hx with hhead | htail
      · subst hhead
        cases hA : goAtoi (goMapGet x.labels labelNumber) with
        | error e => rfl
        | ok n => rw [hA] at hbad; simp [Except.isOk, Except.toBool] at hbad
      · cases hA : goAtoi (goMapGet r.labels labelNumber) with
        | error e => rfl
        | ok n =>
          have hrest : (collectContainers rest).isOk = false :=
            ih.1 ⟨x, htail, hbad⟩
          cases hR : collectContainers rest with
          | error e => rfl
          | ok result => rw [hR] at hrest; simp [Except.isOk, Except.toBool] at hrest
    · intro cs hcs
      simp only [collectContainers] at hcs
      cases hA : goAtoi (goMapGet r.labels labelNumber) with
      | error e => rw [hA] at hcs; cases hcs
      | ok n =>
        rw [hA] at hcs
        cases hR : collectContainers rest with
        | error e => rw [hR] at hcs; cases hcs
        | ok result =>
          rw [hR] at hcs
          cases hcs
          exact List.Forall₂.cons ⟨rfl, hA⟩ (ih.2 result hR)

theorem collectContainers_label_invariant_witness :
    (collectContainers
      [⟨[(labelNumber, "not-a-number")], ["/proj_web_1"]⟩]).isOk = false ∧
    (∀ cs, collectContainers
        [⟨[(labelNumber, "1")], ["/proj_web_1"]⟩] = .ok cs →
      List.Forall₂
        (fun r p => p.1 = queryName r ∧
          goAtoi (goMapGet r.labels labelNumber) = .ok p.2)
        [⟨[(labelNumber, "1")], ["/proj_web_1"]⟩] cs) :=
  ⟨(collectContainers_label_invariant
      [⟨[(labelNumber, "not-a-number")], ["/proj_web_1"]⟩]).1
      ⟨⟨[(labelNumber, "not-a-number")], ["/proj_web_1"]⟩,
        List.mem_singleton.mpr rfl, by decide⟩,
    (collectContainers_label_invariant
      [⟨[(labelNumber, "1")], ["/proj_web_1"]⟩]).2⟩

/-- C9 counterexample: at a concrete host configuration and linked
container set, the shared-IPC and shared-network namespace derivations
return the host configuration unchanged with no error at all, so no
not-yet-supported condition is surfaced to the caller. -/
theorem addIpc_addNetNs_counterexample :
    addIpc ⟨["/host:/data"], ["db:db"]⟩ ["cnt0"]
        = .ok ⟨["/host:/data"], ["db:db"]⟩ ∧
      addNetNs ⟨["/host:/data"], ["db:db"]⟩ ["cnt0"]
        = .ok ⟨["/host:/data"], ["db:db"]⟩ := ⟨rfl, rfl⟩

/-- C9 amended: the shared-IPC and shared-network namespace derivations are
inactive placeholders: `addIpc` and `addNetNs` return the host
configuration unchanged and never error, and a dependent-service entry of
either namespace kind leaves the host-configuration derivation exactly as
if the entry were not declared — the declared setting is silently ignored
rather than surfaced as a not-yet-supported condition. -/
theorem sharedNamespace_silently_ignored (hc : HostConfig)
    (containers : List String) (d : DepEntry) (deps : List DepEntry)
    (links : List (String × String))
    (hrel : d.rel.relType = RelType.ipcNamespace ∨
      d.rel.relType = RelType.netNamespace) :
    addIpc hc containers = .ok hc ∧
    addNetNs hc containers = .ok hc ∧
    populateLoop (d :: deps) links hc = populateLoop deps links hc := by
  refine ⟨rfl, rfl, ?_⟩
  rcases hrel with h | h <;>
    · simp only [populateLoop, h, addIpc, addNetNs]
      cases d.present <;> simp

theorem sharedNamespace_silently_ignored_witness :
    addIpc ⟨[], []⟩ ["cnt1"] = .ok ⟨[], []⟩ ∧
    addNetNs ⟨[], []⟩ ["cnt1"] = .ok ⟨[], []⟩ ∧
    populateLoop [⟨⟨RelType.ipcNamespace, "db", "db"⟩, true, ["cnt1"]⟩] [] ⟨[], []⟩
      = populateLoop [] [] ⟨[], []⟩ :=
  sharedNamespace_silently_ignored ⟨[], []⟩ ["cnt1"]
    ⟨⟨RelType.ipcNamespace, "db", "db"⟩, true, ["cnt1"]⟩ [] []
    (Or.inl rfl)

/-- C2: for an existing container, `OutOfSync` succeeds and is true exactly
when the recorded image reference differs from the target, or the stored
configuration-hash label differs from the hash of the current effective
configuration, or the locally resolved target image's content ID differs
from the image ID the container was created against; a locally absent
target image contributes "in sync", not an error. -/
theorem OutOfSync_drift_characterisation (env : Env) (imageName : String)
    (st : St) (container : ContainerRecord)
    (hf : findExisting st.world env.name = some container) :
    ∃ b, OutOfSync env imageName st = .ok b ∧
      (b = true ↔
        (¬ container.configImage = imageName ∨
         ¬ goMapGet container.labels labelHash
            = GetServiceHash env.serviceName st.serviceConfig ∨
         (∃ imageId, imageInspect st.world imageName = some imageId ∧
            ¬ imageId = container.imageId))) := by
  simp only [OutOfSync, hf]
  by_cases ha : container.configImage = imageName
  · rw [if_neg (not_not_intro ha)]
    by_cases hb : goMapGet container.labels labelHash
        = GetServiceHash env.serviceName st.serviceConfig
    · rw [if_neg (not_not_intro hb), ha]
      cases hi : imageInspect st.world imageName with
      | none =>
        refine ⟨false, rfl, ?_⟩
        simp [ha, hb, hi]
      | some imageId =>
        refine ⟨decide (¬ imageId = container.imageId), rfl, ?_⟩
        simp [ha, hb, hi]
    · rw [if_pos hb]
      exact ⟨true, rfl, by simp [hb]⟩
  · rw [if_pos ha]
    exact ⟨true, rfl, by simp [ha]⟩

/-- Concrete container for the C2 witness. -/
def c2Container : ContainerRecord :=
  { id := "cnt0", name := "/proj_web_1", configImage := "redis",
    imageId := "sha256:aaa", labels := [(labelHash, "somehash")] }

/-- Concrete state for the C2 witness. -/
def c2St : St :=
  { world := { containers := [c2Container], images := [("redis", "sha256:bbb")] }
    serviceConfig := {} }

/-- Concrete container identity for the C2 witness. -/
def c2Env : Env :=
  { name := "proj_web_1", serviceName := "web", projectName := "proj" }

theorem OutOfSync_drift_characterisation_witness :
    ∃ b, OutOfSync c2Env "redis" c2St = .ok b ∧
      (b = true ↔
        (¬ c2Container.configImage = "redis" ∨
         ¬ goMapGet c2Container.labels labelHash
            = GetServiceHash c2Env.serviceName c2St.serviceConfig ∨
         (∃ imageId, imageInspect c2St.world "redis" = some imageId ∧
            ¬ imageId = c2Container.imageId))) :=
  OutOfSync_drift_characterisation c2Env "redis" c2St c2Container rfl

/-- C3: the create-time configuration override is assigned through the
`c.service.serviceConfig` pointer, so after `createContainer` returns, the
owning Service's persisted configuration carries the override's Command,
Tty and StdinOpen values on every execution path — the persisted
configuration is NOT left unchanged, contradicting the claim. -/
theorem createContainer_override_mutates_persisted_config (env : Env)
    (imageName oldContainer : String) (ov : ServiceConfig) (st : St) :
    ((createContainer env imageName oldContainer (some ov) st).2).serviceConfig
      = { st.serviceConfig with
            command := ov.command, tty := ov.tty, stdinOpen := ov.stdinOpen } := by
  unfold createContainer
  simp only [applyOverride]
  split
  · rfl
  · split
    · rfl
    · split <;> try rfl
      split <;> rfl

/-! Support lemmas for the create/recreate paths. -/

theorem populateLoop_ok (deps : List DepEntry) (links : List (String × String))
    (hc : HostConfig) :
    ∃ lks, populateLoop deps links hc = .ok (lks, hc) := by
  induction deps generalizing links with
  | nil => exact ⟨links, rfl⟩
  | cons d rest ih =>
    by_cases hp : d.present = false
    · simpa [populateLoop, hp] using ih links
    · cases hrel : d.rel.relType with
      | link =>
        obtain ⟨lks, h⟩ := ih (addLinks links d.rel d.containers)
        exact ⟨lks, by simp [populateLoop, hp, hrel, h]⟩
      | ipcNamespace =>
        obtain ⟨lks, h⟩ := ih links
        exact ⟨lks, by simp [populateLoop, hp, hrel, addIpc, h]⟩
      | netNamespace =>
        obtain ⟨lks, h⟩ := ih links
        exact ⟨lks, by simp [populateLoop, hp, hrel, addNetNs, h]⟩

theorem populate_binds (env : Env) (sc : ServiceConfig) (hc0 : HostConfig) :
    ∃ hc, populateAdditionalHostConfig env sc hc0 = .ok hc ∧ hc.binds = hc0.binds := by
  obtain ⟨lks, h⟩ := populateLoop_ok env.dependentServices [] hc0
  exact ⟨{ hc0 with
            links := lks.map (fun kv => kv.2 ++ ":" ++ kv.1) ++ sc.externalLinks },
    by simp [populateAdditionalHostConfig, h], rfl⟩

/-- The container record a successful ContainerCreate adds: canonical name,
target image, assembled labels, binds as derived. -/
def mkCreated (env : Env) (imageName : String) (sc : ServiceConfig) (w : World)
    (binds : List String) : ContainerRecord :=
  { id := freshId w
    name := "/" ++ env.name
    configImage := imageName
    imageId := (imageInspect w imageName).getD ""
    labels := buildLabels env sc []
    running := false
    paused := false
    mounts := bindsToMounts binds
    binds := binds }

/-- The runtime world after a successful ContainerCreate. -/
def worldAfterCreate (env : Env) (w : World) (rec : ContainerRecord) : World :=
  { w with containers := rec :: w.containers, nextId := w.nextId + 1,
           log := w.log ++ [.create env.name] }

theorem createContainer_noOld_spec (env : Env) (imageName : String)
    (ov : Option ServiceConfig) (st : St)
    (hCF : st.world.createFails = false) :
    createContainer env imageName "" ov st =
      (.ok (mkCreated env imageName (applyOverride st.serviceConfig ov) st.world
          (ConvertToAPI (applyOverride st.serviceConfig ov)).hostConfig.binds),
       { world := worldAfterCreate env st.world
            (mkCreated env imageName (applyOverride st.serviceConfig ov) st.world
              (ConvertToAPI (applyOverride st.serviceConfig ov)).hostConfig.binds)
         serviceConfig := applyOverride st.serviceConfig ov }) := by
  obtain ⟨hc, hpop, hbinds⟩ :=
    populate_binds env (applyOverride st.serviceConfig ov)
      (ConvertToAPI (applyOverride st.serviceConfig ov)).hostConfig
  unfold createContainer
  simp only [hpop]
  simp only [hCF, Bool.false_eq_true, if_false, reduceIte]
  simp only [hbinds]
  rw [inspectById]
  rw [List.find?_cons_of_pos _ (by simp)]
  simp [mkCreated, worldAfterCreate, ConvertToAPI, hCF, hbinds]

theorem createContainer_withOld_spec (env : Env) (imageName oldC : String)
    (ov : Option ServiceConfig) (st : St) (info : ContainerRecord)
    (hOld : ¬ oldC = "") (hIns : inspectById st.world oldC = some info)
    (hCF : st.world.createFails = false) :
    createContainer env imageName oldC ov st =
      (.ok (mkCreated env imageName (applyOverride st.serviceConfig ov) st.world
          (utilMerge (ConvertToAPI (applyOverride st.serviceConfig ov)).hostConfig.binds
            (volumeBinds (ConvertToAPI (applyOverride st.serviceConfig ov)).config.volumes
              info))),
       { world := worldAfterCreate env st.world
            (mkCreated env imageName (applyOverride st.serviceConfig ov) st.world
              (utilMerge (ConvertToAPI (applyOverride st.serviceConfig ov)).hostConfig.binds
                (volumeBinds
                  (ConvertToAPI (applyOverride st.serviceConfig ov)).config.volumes
                  info)))
         serviceConfig := applyOverride st.serviceConfig ov }) := by
  obtain ⟨hc, hpop, hbinds⟩ :=
    populate_binds env (applyOverride st.serviceConfig ov)
      (ConvertToAPI (applyOverride st.serviceConfig ov)).hostConfig
  unfold createContainer
  simp only [hpop]
  simp only [if_neg hOld, hIns, hCF, Bool.false_eq_true, if_false, hbinds]
  rw [inspectById]
  rw [List.find?_cons_of_pos _ (by simp)]
  simp [mkCreated, worldAfterCreate, ConvertToAPI, hCF, hbinds]

theorem createContainer_fail (env : Env) (imageName oldC : String)
    (ov : Option ServiceConfig) (st : St)
    (hCF : st.world.createFails = true) :
    ∃ e st'', createContainer env imageName oldC ov st = (.error e, st'') := by
  obtain ⟨hc, hpop, -⟩ :=
    populate_binds env (applyOverride st.serviceConfig ov)
      (ConvertToAPI (applyOverride st.serviceConfig ov)).hostConfig
  unfold createContainer
  simp only [hpop]
  by_cases hOld : oldC = ""
  · simp [hOld, hCF]
  · cases hIns : inspectById st.world oldC with
    | none => simp [hOld, hIns]
    | some info => simp [hOld, hIns, hCF]

/-- C10: an existing container whose labels carry no (or an empty)
config-hash entry makes `Recreate` fail before any state change: the
returned state is exactly the input state — no rename, no create, no
removal, no event. -/
theorem Recreate_missing_hash_no_state_change (env : Env) (imageName : String)
    (st : St) (container : ContainerRecord)
    (hf : findExisting st.world env.name = some container)
    (hh : goMapGet container.labels labelHash = "") :
    Recreate env imageName st
      = (.error ("Failed to find hash on old container: " ++ container.name), st) := by
  simp only [Recreate, hf, hh]
  rw [if_pos trivial]

/-- Concrete state for the C10 witness: the existing container carries
labels without any config-hash entry. -/
def c10Container : ContainerRecord :=
  { id := "cnt7", name := "/proj_db_1", configImage := "postgres",
    imageId := "sha256:ccc", labels := [(labelNumber, "1")] }

/-- Concrete state for the C10 witness. -/
def c10St : St :=
  { world := { containers := [c10Container] }, serviceConfig := {} }

theorem Recreate_missing_hash_no_state_change_witness :
    Recreate ⟨"proj_db_1", "db", "proj", 1, false, []⟩ "postgres" c10St
      = (.error ("Failed to find hash on old container: " ++ c10Container.name),
         c10St) :=
  Recreate_missing_hash_no_state_change ⟨"proj_db_1", "db", "proj", 1, false, []⟩
    "postgres" c10St c10Container rfl rfl

/-- The state after a creating CreateWithOverride call: the new record is
registered and exactly one ContainerCreated event is appended. -/
def stateAfterCreateEvent (env : Env) (w : World) (sc : ServiceConfig)
    (rec : ContainerRecord) : St :=
  { world :=
      { worldAfterCreate env w rec with
          events := w.events ++
            [⟨.containerCreated, env.serviceName, [("name", env.name)]⟩] }
    serviceConfig := sc }

theorem CreateWithOverride_existing (env : Env) (imageName : String)
    (ov : Option ServiceConfig) (st : St) (c : ContainerRecord)
    (hfe : findExisting st.world env.name = some c) :
    CreateWithOverride env imageName ov st = (.ok c, st) := by
  simp [CreateWithOverride, hfe]

theorem CreateWithOverride_fresh (env : Env) (imageName : String)
    (ov : Option ServiceConfig) (st : St)
    (hfe : findExisting st.world env.name = none)
    (hcf : st.world.createFails = false) :
    CreateWithOverride env imageName ov st =
      (.ok (mkCreated env imageName (applyOverride st.serviceConfig ov) st.world
          (ConvertToAPI (applyOverride st.serviceConfig ov)).hostConfig.binds),
       stateAfterCreateEvent env st.world (applyOverride st.serviceConfig ov)
         (mkCreated env imageName (applyOverride st.serviceConfig ov) st.world
           (ConvertToAPI (applyOverride st.serviceConfig ov)).hostConfig.binds)) := by
  have hcc := createContainer_noOld_spec env imageName ov st hcf
  simp only [CreateWithOverride, hfe, hcc]
  simp [stateAfterCreateEvent, worldAfterCreate]

/-- C1: `CreateWithOverride` is idempotent.  If the first call returns a
container, an immediately repeated call returns the same container and
leaves the state untouched; when the container already existed the first
call returns it unchanged with no event; when it did not exist the first
call appends exactly one ContainerCreated event and exactly one container
carrying the canonical name exists afterwards. -/
theorem Create_idempotent (env : Env) (imageName : String)
    (ov : Option ServiceConfig) (st : St) (r : ContainerRecord) (st' : St)
    (hfirst : CreateWithOverride env imageName ov st = (.ok r, st')) :
    CreateWithOverride env imageName ov st' = (.ok r, st') ∧
    (∀ c, findExisting st.world env.name = some c → r = c ∧ st' = st) ∧
    (findExisting st.world env.name = none →
      st'.world.events = st.world.events ++
        [⟨.containerCreated, env.serviceName, [("name", env.name)]⟩] ∧
      st'.world.containers.filter (fun x => x.name = "/" ++ env.name) = [r]) := by
  cases hfe : findExisting st.world env.name with
  | some c =>
    have h1 := CreateWithOverride_existing env imageName ov st c hfe
    have h2 := h1.symm.trans hfirst
    have hr : r = c := by
      have := congrArg Prod.fst h2
      simp only at this
      injection this with h
      exact h.symm
    have hst : st' = st := by
      have := congrArg Prod.snd h2
      simp only at this
      exact this.symm
    subst hr; subst hst
    refine ⟨h1, ?_, ?_⟩
    · intro c' hc'
      injection hc' with h
      exact ⟨h, rfl⟩
    · intro hnone
      simp at hnone
  | none =>
    cases hcf : st.world.createFails with
    | true =>
      obtain ⟨e, st'', hfail⟩ := createContainer_fail env imageName "" ov st hcf
      have h1 : CreateWithOverride env imageName ov st = (.error e, st'') := by
        simp [CreateWithOverride, hfe, hfail]
      rw [h1] at hfirst
      have := congrArg Prod.fst hfirst
      simp only at this
      exact absurd this (by simp)
    | false =>
      have h1 := CreateWithOverride_fresh env imageName ov st hfe hcf
      have h2 := h1.symm.trans hfirst
      have hr : r = mkCreated env imageName (applyOverride st.serviceConfig ov) st.world
          (ConvertToAPI (applyOverride st.serviceConfig ov)).hostConfig.binds := by
        have := congrArg Prod.fst h2
        simp only at this
        injection this with h
        exact h.symm
      have hst : st' = stateAfterCreateEvent env st.world
          (applyOverride st.serviceConfig ov)
          (mkCreated env imageName (applyOverride st.serviceConfig ov) st.world
            (ConvertToAPI (applyOverride st.serviceConfig ov)).hostConfig.binds) := by
        have := congrArg Prod.snd h2
        simp only at this
        exact this.symm
      have hname : r.name = "/" ++ env.name := by rw [hr]; rfl
      have hfind' : findExisting st'.world env.name = some r := by
        rw [hst]
        simp only [stateAfterCreateEvent, worldAfterCreate, findExisting]
        rw [← hr]
        exact List.find?_cons_of_pos _ (by simp [hname])
      refine ⟨?_, ?_, ?_⟩
      · exact (CreateWithOverride_existing env imageName ov st' r hfind').trans
          (by rw [hst])
      · intro c hc
        exact absurd hc (by simp)
      · intro _
        have hnil : st.world.containers.filter
            (fun x => x.name = "/" ++ env.name) = [] := by
          rw [List.filter_eq_nil_iff]
          intro a ha
          have := List.find?_eq_none.mp hfe a ha
          simpa using this
        constructor
        · rw [hst]; rfl
        · rw [hst]
          simp only [stateAfterCreateEvent, worldAfterCreate]
          rw [← hr]
          rw [List.filter_cons_of_pos (by simp [hname]), hnil]

/-- Concrete identity for the C1 witness. -/
def c1Env : Env :=
  { name := "proj_web_1", serviceName := "web", projectName := "proj" }

/-- Concrete initial state for the C1 witness: empty runtime. -/
def c1St : St := { world := {}, serviceConfig := { image := "redis" } }

/-- Result of the first CreateWithOverride call of the C1 witness. -/
def c1Res : Except String ContainerRecord × St :=
  CreateWithOverride c1Env "redis" none c1St

/-- The container record the first C1 call creates. -/
def c1Rec : ContainerRecord :=
  match c1Res.1 with
  | .ok r => r
  | .error _ => { id := "", name := "", configImage := "", imageId := "", labels := [] }

theorem Create_idempotent_witness :
    CreateWithOverride c1Env "redis" none c1Res.2 = (.ok c1Rec, c1Res.2) ∧
    (∀ c, findExisting c1St.world c1Env.name = some c → c1Rec = c ∧ c1Res.2 = c1St) ∧
    (findExisting c1St.world c1Env.name = none →
      c1Res.2.world.events = c1St.world.events ++
        [⟨.containerCreated, c1Env.serviceName, [("name", c1Env.name)]⟩] ∧
      c1Res.2.world.containers.filter
        (fun x => x.name = "/" ++ c1Env.name) = [c1Rec]) :=
  Create_idempotent c1Env "redis" none c1St c1Rec c1Res.2 rfl

theorem find?_map_rename (l : List ContainerRecord) (cid newName : String) :
    (l.map (fun r => if r.id = cid then { r with name := "/" ++ newName } else r)).find?
        (fun r => r.id = cid)
      = (l.find? (fun r => r.id = cid)).map
          (fun r => if r.id = cid then { r with name := "/" ++ newName } else r) := by
  induction l with
  | nil => rfl
  | cons a tl ih =>
    simp only [List.map_cons, List.find?_cons]
    by_cases ha : a.id = cid
    · simp [ha]
    · simp [ha, ih]

theorem inspectById_rename (w : World) (cid newName : String)
    (info : ContainerRecord) (h : inspectById w cid = some info) :
    inspectById (renameWorld w cid newName) cid
      = some { info with name := "/" ++ newName } := by
  have hid : info.id = cid := by
    have := List.find?_some h
    simpa using this
  simp only [inspectById, renameWorld] at *
  rw [find?_map_rename, h]
  simp [hid]

theorem createContainer_withOld_fail (env : Env) (imageName oldC : String)
    (ov : Option ServiceConfig) (st : St) (info : ContainerRecord)
    (hOld : ¬ oldC = "") (hIns : inspectById st.world oldC = some info)
    (hCF : st.world.createFails = true) :
    createContainer env imageName oldC ov st =
      (.error createFailedErr,
       { st with serviceConfig := applyOverride st.serviceConfig ov }) := by
  obtain ⟨hc, hpop, -⟩ :=
    populate_binds env (applyOverride st.serviceConfig ov)
      (ConvertToAPI (applyOverride st.serviceConfig ov)).hostConfig
  unfold createContainer
  simp only [hpop]
  simp only [if_neg hOld, hIns, hCF, if_true]

/-- The canonical renamed identity `name-id[:12]` of Recreate. -/
def recreateNewName (container : ContainerRecord) : String :=
  container.name.drop 1 ++ "-" ++ container.id.take 12

/-- The replacement record a successful Recreate creates. -/
def recreateReplacement (env : Env) (imageName : String) (st : St)
    (container : ContainerRecord) : ContainerRecord :=
  mkCreated env imageName st.serviceConfig
    (renameWorld st.world container.id (recreateNewName container))
    (utilMerge (ConvertToAPI st.serviceConfig).hostConfig.binds
      (volumeBinds (ConvertToAPI st.serviceConfig).config.volumes
        { container with name := "/" ++ recreateNewName container }))

theorem Recreate_success_spec (env : Env) (imageName : String) (st : St)
    (container : ContainerRecord)
    (hf : findExisting st.world env.name = some container)
    (hIns : inspectById st.world container.id = some container)
    (hh : ¬ goMapGet container.labels labelHash = "")
    (hid : ¬ container.id = "")
    (hCF : st.world.createFails = false) :
    Recreate env imageName st =
      (.ok (some (recreateReplacement env imageName st container)),
       { world := removeWorld
            (worldAfterCreate env
              (renameWorld st.world container.id (recreateNewName container))
              (recreateReplacement env imageName st container))
            container.id true false
         serviceConfig := st.serviceConfig }) := by
  have hIns1 : inspectById (renameWorld st.world container.id
      (recreateNewName container)) container.id
      = some { container with name := "/" ++ recreateNewName container } :=
    inspectById_rename st.world container.id (recreateNewName container)
      container hIns
  have hCF1 : (renameWorld st.world container.id
      (recreateNewName container)).createFails = false := hCF
  have hcc := createContainer_withOld_spec env imageName container.id none
    { world := renameWorld st.world container.id (recreateNewName container)
      serviceConfig := st.serviceConfig }
    { container with name := "/" ++ recreateNewName container }
    hid hIns1 hCF1
  simp only [Recreate, hf]
  rw [if_neg hh]
  simp only [applyOverride] at hcc
  rw [show container.name.drop 1 ++ "-" ++ container.id.take 12
      = recreateNewName container from rfl]
  rw [hcc]
  simp only [recreateReplacement]

theorem Recreate_createFail_spec (env : Env) (imageName : String) (st : St)
    (container : ContainerRecord)
    (hf : findExisting st.world env.name = some container)
    (hIns : inspectById st.world container.id = some container)
    (hh : ¬ goMapGet container.labels labelHash = "")
    (hid : ¬ container.id = "")
    (hCF : st.world.createFails = true) :
    Recreate env imageName st =
      (.error createFailedErr,
       { world := renameWorld st.world container.id (recreateNewName container)
         serviceConfig := st.serviceConfig }) := by
  have hIns1 : inspectById (renameWorld st.world container.id
      (recreateNewName container)) container.id
      = some { container with name := "/" ++ recreateNewName container } :=
    inspectById_rename st.world container.id (recreateNewName container)
      container hIns
  have hCF1 : (renameWorld st.world container.id
      (recreateNewName container)).createFails = true := hCF
  have hcc := createContainer_withOld_fail env imageName container.id none
    { world := renameWorld st.world container.id (recreateNewName container)
      serviceConfig := st.serviceConfig }
    { container with name := "/" ++ recreateNewName container }
    hid hIns1 hCF1
  simp only [Recreate, hf]
  rw [if_neg hh]
  simp only [applyOverride] at hcc
  rw [show container.name.drop 1 ++ "-" ++ container.id.take 12
      = recreateNewName container from rfl]
  rw [hcc]

/-- C4: `Recreate` performs rename, then create, then force-remove, in that
strict order (witnessed by the runtime-call log): the old container is
renamed to its canonical name suffixed with the first twelve characters of
its runtime ID, the replacement is created under the canonical name, and
the renamed original is force-removed without volume removal.  When the
replacement's creation fails, `Recreate` returns the underlying error, the
log shows the rename as the only state change (no rollback rename), and
the renamed-but-not-yet-replaced container is still present. -/
theorem Recreate_rename_create_remove (env : Env) (imageName : String)
    (st : St) (container : ContainerRecord)
    (hf : findExisting st.world env.name = some container)
    (hIns : inspectById st.world container.id = some container)
    (hh : ¬ goMapGet container.labels labelHash = "")
    (hid : ¬ container.id = "") :
    (st.world.createFails = false →
      ∃ newR st', Recreate env imageName st = (.ok (some newR), st') ∧
        st'.world.log = st.world.log ++
          [.rename container.id
            (container.name.drop 1 ++ "-" ++ container.id.take 12),
           .create env.name,
           .remove container.id true false] ∧
        newR.name = "/" ++ env.name) ∧
    (st.world.createFails = true →
      ∃ st', Recreate env imageName st = (.error createFailedErr, st') ∧
        st'.world.log = st.world.log ++
          [.rename container.id
            (container.name.drop 1 ++ "-" ++ container.id.take 12)] ∧
        { container with
            name := "/" ++ (container.name.drop 1 ++ "-" ++ container.id.take 12) }
          ∈ st'.world.containers) := by
  constructor
  · intro hCF
    refine ⟨recreateReplacement env imageName st container, _,
      Recreate_success_spec env imageName st container hf hIns hh hid hCF, ?_, ?_⟩
    · simp [removeWorld, worldAfterCreate, renameWorld, recreateNewName]
    · rfl
  · intro hCF
    refine ⟨_,
      Recreate_createFail_spec env imageName st container hf hIns hh hid hCF, ?_, ?_⟩
    · simp [renameWorld, recreateNewName]
    · have hmem := List.mem_of_find?_eq_some hIns
      simp only [renameWorld]
      have : { container with
          name := "/" ++ (container.name.drop 1 ++ "-" ++ container.id.take 12) }
          = (fun r => if r.id = container.id then
              { r with name := "/" ++ recreateNewName container } else r) container := by
        simp [recreateNewName]
      rw [this]
      exact List.mem_map_of_mem _ hmem

/-- Concrete existing container for the C4 witness. -/
def c4Container : ContainerRecord :=
  { id := "0123456789abcdef", name := "/proj_web_1", configImage := "redis",
    imageId := "sha256:aaa", labels := [(labelHash, "somehash")],
    mounts := [⟨"/host/data", "/data"⟩] }

/-- Concrete state for the C4 witness (creation succeeds). -/
def c4St : St :=
  { world := { containers := [c4Container] }
    serviceConfig := { image := "redis", volumes := ["/data"] } }

theorem Recreate_rename_create_remove_witness :
    ((c4St.world.createFails = false →
      ∃ newR st', Recreate ⟨"proj_web_1", "web", "proj", 1, false, []⟩ "redis" c4St
          = (.ok (some newR), st') ∧
        st'.world.log = c4St.world.log ++
          [.rename c4Container.id
            (c4Container.name.drop 1 ++ "-" ++ c4Container.id.take 12),
           .create "proj_web_1",
           .remove c4Container.id true false] ∧
        newR.name = "/" ++ "proj_web_1") ∧
    (c4St.world.createFails = true →
      ∃ st', Recreate ⟨"proj_web_1", "web", "proj", 1, false, []⟩ "redis" c4St
          = (.error createFailedErr, st') ∧
        st'.world.log = c4St.world.log ++
          [.rename c4Container.id
            (c4Container.name.drop 1 ++ "-" ++ c4Container.id.take 12)] ∧
        { c4Container with
            name := "/" ++ (c4Container.name.drop 1 ++ "-" ++ c4Container.id.take 12) }
          ∈ st'.world.containers)) :=
  Recreate_rename_create_remove ⟨"proj_web_1", "web", "proj", 1, false, []⟩
    "redis" c4St c4Container rfl rfl (by decide) (by decide)

theorem mem_volumeBinds (volumes : List String) (info : ContainerRecord)
    (S D : String) (hm : (⟨S, D⟩ : Mount) ∈ info.mounts) (hv : D ∈ volumes) :
    (S ++ ":" ++ D) ∈ volumeBinds volumes info := by
  unfold volumeBinds
  exact List.mem_map_of_mem _ (List.mem_filter.mpr ⟨hm, by simpa using hv⟩)

theorem mem_utilMerge_right (a b : List String) (x : String) (hx : x ∈ b) :
    x ∈ utilMerge a b := by
  unfold utilMerge
  by_cases h : x ∈ a
  · exact List.mem_append_left _ h
  · exact List.mem_append_right _ (List.mem_filter.mpr ⟨hx, by simpa using h⟩)

/-- C8: for every destination D declared among the new configuration's
volumes, if the old container carried a mount of host source S at D, the
replacement container produced by a successful `Recreate` carries the bind
`S:D` in its host-configuration binds. -/
theorem Recreate_preserves_volume_binds (env : Env) (imageName : String)
    (st : St) (container : ContainerRecord) (S D : String)
    (hf : findExisting st.world env.name = some container)
    (hIns : inspectById st.world container.id = some container)
    (hh : ¬ goMapGet container.labels labelHash = "")
    (hid : ¬ container.id = "")
    (hCF : st.world.createFails = false)
    (hm : (⟨S, D⟩ : Mount) ∈ container.mounts)
    (hv : D ∈ (ConvertToAPI st.serviceConfig).config.volumes) :
    ∃ newR st', Recreate env imageName st = (.ok (some newR), st') ∧
      (S ++ ":" ++ D) ∈ newR.binds := by
  refine ⟨recreateReplacement env imageName st container, _,
    Recreate_success_spec env imageName st container hf hIns hh hid hCF, ?_⟩
  show (S ++ ":" ++ D) ∈ (recreateReplacement env imageName st container).binds
  simp only [recreateReplacement, mkCreated]
  exact mem_utilMerge_right _ _ _ (mem_volumeBinds _ _ _ _ hm hv)

theorem Recreate_preserves_volume_binds_witness :
    ∃ newR st', Recreate ⟨"proj_web_1", "web", "proj", 1, false, []⟩ "redis" c4St
        = (.ok (some newR), st') ∧
      ("/host/data" ++ ":" ++ "/data") ∈ newR.binds :=
  Recreate_preserves_volume_binds ⟨"proj_web_1", "web", "proj", 1, false, []⟩
    "redis" c4St c4Container "/host/data" "/data" rfl rfl (by decide) (by decide)
    rfl (by simp [c4Container]) (by decide)

end LibCompose
